import Mathlib

/-!
Verification of the `novel` element-factory library (src/index.ts).

The library maps HTML tag names to factory functions.  A factory takes up
to two positional parameters of flexible shape, resolves them into a
`(props, children)` pair, merges the `className`/`classes` properties, and
builds a DOM element (attributes, event listeners, data attributes, text
content, child nodes).

The embedding below models JavaScript runtime values (`JSVal`), DOM nodes
as records in an append-only store (`Store`, giving each created node a
fresh reference so that node identity is expressible), and translates
`createNativeDOMElement` and `createNativeElementFunction` from the
source.  `appendChild` is modelled as recording the child reference in
the parent; the host DOM additionally re-parents an already-attached
child, which the pure model does not track.
-/

namespace Novel

/-- A JavaScript runtime value, as far as the library inspects values:
`null`, strings, numbers (the library only distinguishes integral
behaviour), functions (with an identity tag), plain objects (their
enumerable string-keyed entries in insertion order), arrays, and
references to `HTMLElement` nodes in the store. -/
inductive JSVal where
  | null : JSVal
  | str : String → JSVal
  | num : Int → JSVal
  | func : Nat → JSVal
  | obj : List (String × JSVal) → JSVal
  | arr : List JSVal → JSVal
  | elemRef : Nat → JSVal
deriving Repr

/-- JavaScript `typeof`. `typeof null`, arrays and DOM elements are all
`"object"`. -/
def typeofJS : JSVal → String
  | .null => "object"
  | .str _ => "string"
  | .num _ => "number"
  | .func _ => "function"
  | .obj _ => "object"
  | .arr _ => "object"
  | .elemRef _ => "object"

/-- `Array.isArray`. -/
def isArrayJS : JSVal → Bool
  | .arr _ => true
  | _ => false

/-- `v === null`. -/
def isNullJS : JSVal → Bool
  | .null => true
  | _ => false

/-- `v instanceof HTMLElement`. -/
def isHTMLElement : JSVal → Bool
  | .elemRef _ => true
  | _ => false

/-- `typeof v === 'string' || typeof v === 'number'`. -/
def isStringOrNumber (v : JSVal) : Bool :=
  typeofJS v == "string" || typeofJS v == "number"

/-- JavaScript truthiness, for the values `JSVal` models (`undefined`
does not occur: absent properties are handled at lookup sites). -/
def truthyJS : JSVal → Bool
  | .null => false
  | .str s => !(s == "")
  | .num n => !(n == 0)
  | .func _ => true
  | .obj _ => true
  | .arr _ => true
  | .elemRef _ => true

/-- String coercion (`String(v)` and template-literal interpolation). -/
def jsToString : JSVal → String
  | .null => "null"
  | .str s => s
  | .num n => toString n
  | .func _ => "function"
  | .obj _ => "[object Object]"
  | .arr xs => String.intercalate "," (xs.map fun x => jsToStringShallow x)
  | .elemRef _ => "[object HTMLElement]"
where
  /-- One level of array-member coercion, enough for the values the
  library actually stringifies. -/
  jsToStringShallow : JSVal → String
  | .null => ""
  | .str s => s
  | .num n => toString n
  | .func _ => "function"
  | .obj _ => "[object Object]"
  | .arr _ => ""
  | .elemRef _ => "[object HTMLElement]"

/-- `JSON.stringify(v)` as interpolated into a template literal
(functions serialize to `undefined`, which prints as `"undefined"`;
string escaping is not needed for the values under test). -/
def jsonStringify : JSVal → String
  | .null => "null"
  | .str s => "\"" ++ s ++ "\""
  | .num n => toString n
  | .func _ => "undefined"
  | .obj es => "\x7b" ++ String.intercalate ","
      (es.map fun kv => "\"" ++ kv.1 ++ "\":" ++ jsonStringifyShallow kv.2) ++ "\x7d"
  | .arr xs => "[" ++ String.intercalate "," (xs.map fun x => jsonStringifyShallow x) ++ "]"
  | .elemRef _ => "\x7b\x7d"
where
  /-- One nesting level is enough for the inputs the proofs evaluate. -/
  jsonStringifyShallow : JSVal → String
  | .null => "null"
  | .str s => "\"" ++ s ++ "\""
  | .num n => toString n
  | .func _ => "null"
  | .obj _ => "\x7b\x7d"
  | .arr _ => "[]"
  | .elemRef _ => "\x7b\x7d"

/-- Character-list prefix test (structural recursion, so that proofs
can evaluate it). -/
def charsPrefix : List Char → List Char → Bool
  | [], _ => true
  | _ :: _, [] => false
  | c :: cs, d :: ds => (c == d) && charsPrefix cs ds

/-- `s.startsWith(p)`. -/
def strStartsWith (s p : String) : Bool :=
  charsPrefix p.data s.data

/-- `s.substring(n)`: drop the first `n` characters. -/
def strDrop (s : String) (n : Nat) : String :=
  String.mk (s.data.drop n)

/-- Split a character list at every character satisfying `sep`,
keeping empty pieces (the behaviour of `"".split` / `"a  b".split` in
JavaScript). -/
def splitCharsAux (sep : Char → Bool) : List Char → List Char → List String
  | [], acc => [String.mk acc.reverse]
  | c :: cs, acc =>
    if sep c then String.mk acc.reverse :: splitCharsAux sep cs []
    else splitCharsAux sep cs (c :: acc)

/-- `s.split(' ')`: split on the single space character. -/
def splitSpace (s : String) : List String :=
  splitCharsAux (fun c => c == ' ') s.data []

/-- `list.join(' ')`. -/
def joinSpace : List String → String
  | [] => ""
  | [x] => x
  | x :: xs => x ++ " " ++ joinSpace xs

/-- The `InvalidArguments` error message built in the factory closure:
it names the tag and, for each parameter, its serialized form
(`JSON.stringify`) and runtime type (`typeof`). -/
def invalidArgsMessage (tag : String) (param1 param2 : JSVal) : String :=
  "Invalid parameters for <" ++ tag ++ "> element creation.\n" ++
  "Received:\n" ++
  "- param1: " ++ jsonStringify param1 ++ " (" ++ typeofJS param1 ++ ")\n" ++
  "- param2: " ++ jsonStringify param2 ++ " (" ++ typeofJS param2 ++ ")"

/-- Entries of a plain object value (`param1` after the plain-object
checks have passed). -/
def objEntries : JSVal → List (String × JSVal)
  | .obj es => es
  | _ => []

/-- Parameter-pattern resolution: the `if`/`else if` chain at the top of
the factory closure in `createNativeElementFunction`, translated branch
by branch in source order.  Returns the resolved `(props, children)`
pair or the `InvalidArguments` error message. -/
def resolveParams (tag : String) (param1 param2 : JSVal) :
    Except String (List (String × JSVal) × JSVal) :=
  if isNullJS param1 && isNullJS param2 then
    .ok ([], .arr [])
  else if isArrayJS param1 && isNullJS param2 then
    .ok ([], param1)
  else if isStringOrNumber param1 && isNullJS param2 then
    .ok ([], param1)
  else if typeofJS param1 == "object" && !(isNullJS param1) && !(isArrayJS param1) &&
      !(isHTMLElement param1) && isNullJS param2 then
    .ok (objEntries param1, .arr [])
  else if typeofJS param1 == "object" && !(isNullJS param1) && !(isArrayJS param1) &&
      !(isHTMLElement param1) && isArrayJS param2 then
    .ok (objEntries param1, param2)
  else if typeofJS param1 == "object" && !(isNullJS param1) && !(isArrayJS param1) &&
      !(isHTMLElement param1) && isStringOrNumber param2 then
    .ok (objEntries param1, param2)
  else
    .error (invalidArgsMessage tag param1 param2)

/-- The spec side of claim C1: the six-pattern precedence written from
the contract in section 4.1 of the specification (first match wins).
"Plain object" abbreviates "not a list, not an element, not null" as the
spec defines it; the error carries the tag and both parameters in
serialized and typed form. -/
def isPlainObjectSpec (v : JSVal) : Bool :=
  typeofJS v == "object" && !(isNullJS v) && !(isArrayJS v) && !(isHTMLElement v)

/-- Parameter resolution as the specification states it, bullet by
bullet. -/
def resolveSpec (tag : String) (param1 param2 : JSVal) :
    Except String (List (String × JSVal) × JSVal) :=
  if isNullJS param1 && isNullJS param2 then
    .ok ([], .arr [])
  else if isArrayJS param1 && isNullJS param2 then
    .ok ([], param1)
  else if isStringOrNumber param1 && isNullJS param2 then
    .ok ([], param1)
  else if isPlainObjectSpec param1 && isNullJS param2 then
    .ok (objEntries param1, .arr [])
  else if isPlainObjectSpec param1 && isArrayJS param2 then
    .ok (objEntries param1, param2)
  else if isPlainObjectSpec param1 && isStringOrNumber param2 then
    .ok (objEntries param1, param2)
  else
    .error (invalidArgsMessage tag param1 param2)

/-- First-match association lookup in a properties bag (JavaScript
property access `props[k]`; object keys are unique, so first match is
the match). `none` models `undefined`. -/
def lookupProp (props : List (String × JSVal)) (k : String) : Option JSVal :=
  match props with
  | [] => none
  | kv :: rest => if kv.1 == k then some kv.2 else lookupProp rest k

/-- `props[k] = v`: overwrite in place when the key exists, append
otherwise (JavaScript keeps an existing key at its position and adds new
string keys at the end). -/
def setProp (props : List (String × JSVal)) (k : String) (v : JSVal) :
    List (String × JSVal) :=
  if props.any (fun kv => kv.1 == k) then
    props.map (fun kv => if kv.1 == k then (k, v) else kv)
  else
    props ++ [(k, v)]

/-- `delete props[k]`. -/
def delProp (props : List (String × JSVal)) (k : String) : List (String × JSVal) :=
  props.filter (fun kv => !(kv.1 == k))

/-- Truthiness of a property access (`props.k`): absent properties are
`undefined`, hence falsy. -/
def propTruthy (props : List (String × JSVal)) (k : String) : Bool :=
  match lookupProp props k with
  | some v => truthyJS v
  | none => false

/-- `props.k || ''`: the value when truthy, the empty string otherwise
(also when the property is absent). -/
def orEmptyStr (v : Option JSVal) : JSVal :=
  match v with
  | some w => if truthyJS w then w else .str ""
  | none => .str ""

/-- `v.split(' ')`: defined on strings, a `TypeError` otherwise. -/
def splitOnSpace : JSVal → Except String (List String)
  | .str s => .ok (splitSpace s)
  | v => .error ("TypeError: " ++ jsToString v ++ ".split is not a function")

/-- Deduplication keeping the first occurrence of each element, the
order `new Set(list)` iterates in. -/
def dedupFirstAux (seen : List String) : List String → List String
  | [] => []
  | x :: xs =>
    if seen.contains x then dedupFirstAux seen xs
    else x :: dedupFirstAux (x :: seen) xs

/-- `Array.from(new Set(list))`. -/
def dedupFirst (xs : List String) : List String :=
  dedupFirstAux [] xs

/-- The `className`/`classes` merging block of the factory closure:
when `props.className || props.classes` is truthy, split both on the
space character, filter out falsy (empty) tokens, deduplicate keeping
first occurrences, rejoin with single spaces into `props.className`,
and delete `props.classes`.  The `.split(' ')` calls throw when the
truthy value is not a string. -/
def mergeClassNames (props : List (String × JSVal)) :
    Except String (List (String × JSVal)) :=
  if propTruthy props "className" || propTruthy props "classes" then do
    let classNameList ← splitOnSpace (orEmptyStr (lookupProp props "className"))
    let classesList ← splitOnSpace (orEmptyStr (lookupProp props "classes"))
    let uniqueClasses := dedupFirst ((classNameList ++ classesList).filter (fun s => !(s == "")))
    .ok (delProp (setProp props "className" (.str (joinSpace uniqueClasses))) "classes")
  else
    .ok props

/-- One DOM element node: tag, attributes set via `setAttribute` (in
first-set order, later sets overwriting in place), the `className`
property when assigned, registered event listeners in registration
order, `textContent` when assigned, and child node references in
append order. -/
structure ElemData where
  tag : String
  attrs : List (String × String)
  className : Option String
  listeners : List (String × JSVal)
  text : Option String
  children : List Nat
deriving Repr

/-- The append-only store of created nodes; node `r` is `nodes[r]`, and
a freshly created node gets reference `nodes.length`. -/
structure Store where
  nodes : List ElemData
deriving Repr

/-- `element.setAttribute(k, v)`: overwrite an existing attribute in
place, append a new one. -/
def setAttr (attrs : List (String × String)) (k v : String) : List (String × String) :=
  if attrs.any (fun kv => kv.1 == k) then
    attrs.map (fun kv => if kv.1 == k then (k, v) else kv)
  else
    attrs ++ [(k, v)]

/-- `Object.entries(v)` for the values that reach the `data` branch
(`typeof v === 'object'`): plain objects yield their entries, arrays
index/value pairs, DOM elements have no own enumerable properties, and
`null` throws a `TypeError`. -/
def jsEntries : JSVal → Except String (List (String × JSVal))
  | .obj es => .ok es
  | .arr xs => .ok (xs.enum.map fun p => (toString p.1, p.2))
  | .elemRef _ => .ok []
  | .null => .error "TypeError: Cannot convert undefined or null to object"
  | .str s => .ok (s.toList.enum.map fun p => (toString p.1, .str (String.mk [p.2])))
  | .num _ => .ok []
  | .func _ => .ok []

/-- One iteration of the `Object.entries(props).forEach` body in
`createNativeDOMElement`: event-listener registration for callable
values under an `on`-prefixed key, the `className` assignment, the
`data` expansion, and the generic `setAttribute` fallback, in source
order. -/
def applyProp (e : ElemData) (key : String) (value : JSVal) : Except String ElemData :=
  if strStartsWith key "on" && typeofJS value == "function" then
    .ok { e with listeners := e.listeners ++ [(strDrop key 2, value)] }
  else if key == "className" then
    .ok { e with className := some (jsToString value) }
  else if key == "data" && typeofJS value == "object" then do
    let entries ← jsEntries value
    .ok (entries.foldl
      (fun e kv => { e with attrs := setAttr e.attrs ("data-" ++ kv.1) (jsToString kv.2) }) e)
  else
    .ok { e with attrs := setAttr e.attrs key (jsToString value) }

/-- The references among a child array's entries, in order: the
`children.forEach` loop appends exactly the entries that are
`HTMLElement` instances and skips the rest. -/
def childRefs (xs : List JSVal) : List Nat :=
  xs.filterMap fun c => match c with
    | .elemRef r => some r
    | _ => none

/-- The children block of `createNativeDOMElement`: a string or number
becomes the node's text content via `toString`; an array is iterated in
order and each entry that is an `HTMLElement` is appended, others are
skipped; any other value (unreachable from resolution) leaves the node
unchanged. -/
def applyChildren (e : ElemData) (children : JSVal) : ElemData :=
  if typeofJS children == "string" || typeofJS children == "number" then
    { e with text := some (jsToString children) }
  else if isArrayJS children then
    { e with children := e.children ++ (match children with
        | .arr xs => childRefs xs
        | _ => []) }
  else
    e

/-- `document.createElement tag`: a fresh node with no attributes,
listeners, text or children. -/
def newElement (tag : String) : ElemData :=
  { tag := tag, attrs := [], className := none, listeners := [], text := none, children := [] }

/-- The `Object.entries(props).forEach` loop: apply the entries in
mapping iteration order, propagating the first exception. -/
def applyProps (props : List (String × JSVal)) (e : ElemData) : Except String ElemData :=
  match props with
  | [] => .ok e
  | kv :: rest => do
    let e1 ← applyProp e kv.1 kv.2
    applyProps rest e1

/-- The store-independent part of `createNativeDOMElement`: fold the
property entries over a fresh node and apply the children.  The node's
content depends only on the tag, the props and the children. -/
def buildNode (tag : String) (props : List (String × JSVal)) (children : JSVal) :
    Except String ElemData := do
  let e1 ← applyProps props (newElement tag)
  .ok (applyChildren e1 children)

/-- `createNativeDOMElement`: create a fresh node for `tag`, fold the
property entries over it, apply the children, and append the node to
the store, returning its fresh reference. -/
def createNativeDOMElement (store : Store) (tag : String)
    (props : List (String × JSVal)) (children : JSVal) :
    Except String (Store × Nat) := do
  let e ← buildNode tag props children
  .ok ({ nodes := store.nodes ++ [e] }, store.nodes.length)

/-- The `try` block of the factory closure: resolve the parameter
pattern, merge class names (mutating the props bag), build the node.
Returns the new store, the node's reference, and the props bag as it
stands after the call (the caller's object, which the merge step
mutated in place). -/
def buildCall (tag : String) (store : Store) (param1 param2 : JSVal) :
    Except String (Store × Nat × List (String × JSVal)) := do
  let pc ← resolveParams tag param1 param2
  let props ← mergeClassNames pc.1
  let r ← createNativeDOMElement store tag props pc.2
  .ok (r.1, r.2, props)

/-- `createNativeElementFunction tag` applied to `(param1, param2)`:
run the `try` block; on failure log one `console.error` line naming the
tag and the underlying message and re-raise the same error.  The first
component is the list of log lines emitted by the call. -/
def createNativeElementFunction (tag : String) (store : Store) (param1 param2 : JSVal) :
    List String × Except String (Store × Nat × List (String × JSVal)) :=
  match buildCall tag store param1 param2 with
  | .ok r => ([], .ok r)
  | .error msg => (["Error creating " ++ tag ++ " element: " ++ msg], .error msg)

/-- The six recognized call shapes of the specification, as one
predicate: a pair of parameters builds a node exactly when it matches
one of them. -/
def matchesSomePattern (param1 param2 : JSVal) : Bool :=
  (isNullJS param1 && isNullJS param2) ||
  (isArrayJS param1 && isNullJS param2) ||
  (isStringOrNumber param1 && isNullJS param2) ||
  (isPlainObjectSpec param1 && (isNullJS param2 || isArrayJS param2 || isStringOrNumber param2))

/-- The merged class-token list: split both values on the space
character, drop empty tokens, deduplicate keeping first occurrences
(`className` tokens before `classes` tokens). -/
def classTokens (cn cs : String) : List String :=
  dedupFirst ((splitSpace cn ++ splitSpace cs).filter (fun t => !(t == "")))

/-- The merged `className` string. -/
def mergedOf (cn cs : String) : String :=
  joinSpace (classTokens cn cs)

/-- Class merging as claim C3 words it: split each of the two values
"on whitespace" (any whitespace character), union the non-empty
tokens, deduplicate keeping first occurrences, rejoin with single
spaces, delete `classes`.  Written from the claim, for comparison with
`mergeClassNames`, which is translated from the source. -/
def mergeClassNamesSpecWS (props : List (String × JSVal)) :
    Except String (List (String × JSVal)) :=
  if propTruthy props "className" || propTruthy props "classes" then do
    let classNameList ← splitWS (orEmptyStr (lookupProp props "className"))
    let classesList ← splitWS (orEmptyStr (lookupProp props "classes"))
    let uniqueClasses := dedupFirst ((classNameList ++ classesList).filter (fun s => !(s == "")))
    .ok (delProp (setProp props "className" (.str (joinSpace uniqueClasses))) "classes")
  else
    .ok props
where
  /-- Split a string value on whitespace characters. -/
  splitWS : JSVal → Except String (List String)
  | .str s => .ok (splitCharsAux (fun c => c.isWhitespace) s.data [])
  | v => .error ("TypeError: " ++ jsToString v ++ ".split is not a function")

/-- A parameter value carries no reference to a previously constructed
element (no top-level element, and no element among array entries). -/
def hasNoElemRefs : JSVal → Bool
  | .arr xs => xs.all fun c => !(isHTMLElement c)
  | .elemRef _ => false
  | _ => true

/-- Two consecutive invocations of the same factory with the same
arguments: the second call runs on the store the first call produced.
Returns the final store and the two result references. -/
def twiceResult (tag : String) (store : Store) (param1 param2 : JSVal) :
    Except String (Store × Nat × Nat) := do
  let r1 ← (createNativeElementFunction tag store param1 param2).2
  let r2 ← (createNativeElementFunction tag r1.1 param1 param2).2
  .ok (r2.1, r1.2.1, r2.2.1)

/-- A previously constructed element used as a child in the concrete
test calls: `span` with text content. -/
def sampleChild : ElemData :=
  { tag := "span", attrs := [], className := none, listeners := [], text := some "c",
    children := [] }

/-- A second previously constructed element. -/
def sampleChild2 : ElemData :=
  { tag := "em", attrs := [], className := none, listeners := [], text := some "d",
    children := [] }

/-- A store already holding the two sample children (references 0
and 1). -/
def twoChildStore : Store :=
  { nodes := [sampleChild, sampleChild2] }

/-- The node a `div` factory call with the single child `elemRef 0`
builds: its only child is a reference to node 0. -/
def divWithChild0 : ElemData :=
  { tag := "div", attrs := [], className := none, listeners := [], text := none,
    children := [0] }

/-! ## Theorems -/

/-- The factory returns the result of its `try` block unchanged: the
`catch` only logs and re-raises. -/
theorem factory_snd_eq_buildCall (tag : String) (store : Store) (p1 p2 : JSVal) :
    (createNativeElementFunction tag store p1 p2).2 = buildCall tag store p1 p2 := by
  unfold createNativeElementFunction
  cases buildCall tag store p1 p2 <;> rfl

/-- Looking up a key the props bag does not contain past an appended
entry for that key finds the appended value. -/
theorem lookupProp_append_single (p : List (String × JSVal)) (k : String) (v : JSVal)
    (h : p.any (fun kv => kv.1 == k) = false) :
    lookupProp (p ++ [(k, v)]) k = some v := by
  induction p with
  | nil => simp [lookupProp]
  | cons kv rest ih =>
    simp only [List.any_cons, Bool.or_eq_false_iff] at h
    simpa [lookupProp, h.1] using ih h.2

/-- Overwriting an existing key in place leaves its value visible to
lookup. -/
theorem lookupProp_map_set (p : List (String × JSVal)) (k : String) (v : JSVal)
    (h : p.any (fun kv => kv.1 == k) = true) :
    lookupProp (p.map (fun kv => if kv.1 == k then (k, v) else kv)) k = some v := by
  induction p with
  | nil => simp at h
  | cons kv rest ih =>
    by_cases hh : (kv.1 == k) = true
    · simp [lookupProp, hh]
    · simp only [List.any_cons, hh, Bool.false_or] at h
      simp only [List.map_cons, if_neg hh]
      simp only [lookupProp, if_neg hh]
      exact ih h

/-- `props[k] = v` makes `props[k]` read back `v`. -/
theorem lookupProp_setProp_self (p : List (String × JSVal)) (k : String) (v : JSVal) :
    lookupProp (setProp p k v) k = some v := by
  unfold setProp
  by_cases h : p.any (fun kv => kv.1 == k) = true
  · simpa [h] using lookupProp_map_set p k v h
  · simp only [Bool.not_eq_true] at h
    simpa [h] using lookupProp_append_single p k v h

/-- After `delete props[k]` the key is gone. -/
theorem lookupProp_delProp_self (p : List (String × JSVal)) (k : String) :
    lookupProp (delProp p k) k = none := by
  induction p with
  | nil => rfl
  | cons kv rest ih =>
    by_cases hh : (kv.1 == k) = true
    · simpa [delProp, List.filter_cons, hh] using ih
    · simpa [delProp, List.filter_cons, hh, lookupProp] using ih

/-- `delete props[k]` does not disturb other keys. -/
theorem lookupProp_delProp_ne (p : List (String × JSVal)) (k k' : String)
    (h : ¬ k' = k) :
    lookupProp (delProp p k) k' = lookupProp p k' := by
  induction p with
  | nil => rfl
  | cons kv rest ih =>
    by_cases hh : (kv.1 == k) = true
    · have hk : kv.1 = k := by simpa using hh
      have hne : (kv.1 == k') = false := by
        simp [hk]
        intro hc
        exact h hc.symm
      simp [delProp, List.filter_cons, hh, lookupProp, hne] at ih ⊢
      exact ih
    · by_cases hk : (kv.1 == k') = true
      · simp [delProp, List.filter_cons, hh, lookupProp, hk]
      · simp [delProp, List.filter_cons, hh, lookupProp, hk] at ih ⊢
        exact ih

/-- Membership in the deduplicated list: present in the input and not
among the already-seen elements. -/
theorem mem_dedupFirstAux (xs : List String) :
    ∀ (seen : List String) (a : String),
      a ∈ dedupFirstAux seen xs ↔ (a ∈ xs ∧ a ∉ seen) := by
  induction xs with
  | nil => intro seen a; simp [dedupFirstAux]
  | cons x rest ih =>
    intro seen a
    unfold dedupFirstAux
    by_cases h : seen.contains x = true
    · have hx : x ∈ seen := by simpa using h
      rw [if_pos h, ih]
      constructor
      · rintro ⟨h1, h2⟩
        exact ⟨List.mem_cons_of_mem x h1, h2⟩
      · rintro ⟨h1, h2⟩
        rcases List.mem_cons.mp h1 with h1 | h1
        · exact absurd (h1 ▸ hx) h2
        · exact ⟨h1, h2⟩
    · rw [if_neg h]
      have hx : x ∉ seen := by simpa using h
      constructor
      · intro hm
        rcases List.mem_cons.mp hm with h1 | h1
        · refine ⟨List.mem_cons.mpr (Or.inl h1), ?_⟩
          rw [h1]
          exact hx
        · rcases (ih (x :: seen) a).mp h1 with ⟨h2, h3⟩
          refine ⟨List.mem_cons_of_mem x h2, fun hc => h3 (List.mem_cons_of_mem x hc)⟩
      · rintro ⟨h1, h2⟩
        by_cases hax : a = x
        · exact hax ▸ List.mem_cons_self x (dedupFirstAux (x :: seen) rest)
        · rcases List.mem_cons.mp h1 with h1 | h1
          · exact absurd h1 hax
          · refine List.mem_cons_of_mem x ((ih (x :: seen) a).mpr ⟨h1, ?_⟩)
            intro hc
            rcases List.mem_cons.mp hc with hc | hc
            · exact hax hc
            · exact h2 hc

/-- The deduplicated list has no duplicates. -/
theorem nodup_dedupFirstAux (xs : List String) :
    ∀ seen : List String, (dedupFirstAux seen xs).Nodup := by
  induction xs with
  | nil => intro seen; simp [dedupFirstAux]
  | cons x rest ih =>
    intro seen
    unfold dedupFirstAux
    by_cases h : seen.contains x = true
    · rw [if_pos h]
      exact ih seen
    · rw [if_neg h]
      refine List.nodup_cons.mpr ⟨?_, ih (x :: seen)⟩
      intro hc
      exact ((mem_dedupFirstAux rest (x :: seen) x).mp hc).2 (List.mem_cons_self x seen)

/-- `Array.from(new Set(xs))` has no duplicates. -/
theorem dedupFirst_nodup (xs : List String) : (dedupFirst xs).Nodup :=
  nodup_dedupFirstAux xs []

/-- `Array.from(new Set(xs))` has the same members as `xs`. -/
theorem mem_dedupFirst (xs : List String) (a : String) :
    a ∈ dedupFirst xs ↔ a ∈ xs := by
  simpa using mem_dedupFirstAux xs [] a

/-- Characterization of the class-merging block on string-valued
inputs: it rewrites `className` to the merged token string and deletes
`classes`. -/
theorem mergeClassNames_eq (props : List (String × JSVal)) (cn cs : String)
    (h1 : orEmptyStr (lookupProp props "className") = JSVal.str cn)
    (h2 : orEmptyStr (lookupProp props "classes") = JSVal.str cs)
    (h3 : (propTruthy props "className" || propTruthy props "classes") = true) :
    mergeClassNames props =
      .ok (delProp (setProp props "className" (JSVal.str (mergedOf cn cs))) "classes") := by
  unfold mergeClassNames
  rw [h1, h2, h3]
  rfl

/-- C1: for every factory produced for a tag, the two positional
parameters are resolved into `(props, children)` by the six-pattern
precedence exactly as the specification states it: both absent, list
first, scalar first, plain object first, plain object with list second,
plain object with scalar second, in that order, and every other
combination of parameter shapes resolves to an error instead of a
`(props, children)` pair. -/
theorem resolveParams_follows_spec_precedence (tag : String) (param1 param2 : JSVal) :
    resolveParams tag param1 param2 = resolveSpec tag param1 param2 := by
  cases param1 <;> cases param2 <;> rfl

/-- C2: whenever the two parameters match none of the six recognized
call shapes, the factory call returns the `InvalidArguments` error —
whose message names the tag and, for each parameter, its serialized
value and its runtime type — together with one log line, and produces
no node. -/
theorem unmatched_params_raise_invalid_arguments (tag : String) (store : Store)
    (p1 p2 : JSVal) (h : matchesSomePattern p1 p2 = false) :
    createNativeElementFunction tag store p1 p2 =
      (["Error creating " ++ tag ++ " element: " ++
          ("Invalid parameters for <" ++ tag ++ "> element creation.\n" ++
           "Received:\n" ++
           "- param1: " ++ jsonStringify p1 ++ " (" ++ typeofJS p1 ++ ")\n" ++
           "- param2: " ++ jsonStringify p2 ++ " (" ++ typeofJS p2 ++ ")")],
       .error ("Invalid parameters for <" ++ tag ++ "> element creation.\n" ++
           "Received:\n" ++
           "- param1: " ++ jsonStringify p1 ++ " (" ++ typeofJS p1 ++ ")\n" ++
           "- param2: " ++ jsonStringify p2 ++ " (" ++ typeofJS p2 ++ ")")) := by
  have hres : resolveParams tag p1 p2 = .error (invalidArgsMessage tag p1 p2) := by
    cases p1 <;> cases p2 <;>
      simp_all [matchesSomePattern, resolveParams, isPlainObjectSpec, isNullJS,
        isArrayJS, isStringOrNumber, isHTMLElement, typeofJS]
  have hbc : buildCall tag store p1 p2 = .error (invalidArgsMessage tag p1 p2) := by
    unfold buildCall
    rw [hres]
    rfl
  simp [createNativeElementFunction, hbc, invalidArgsMessage]

/-- C2 witness: `tag(42, "ignored")` on the `div` factory. -/
theorem unmatched_params_witness :
    matchesSomePattern (JSVal.num 42) (JSVal.str "ignored") = false ∧
    createNativeElementFunction "div" ⟨[]⟩ (JSVal.num 42) (JSVal.str "ignored") =
      (["Error creating " ++ "div" ++ " element: " ++
          ("Invalid parameters for <" ++ "div" ++ "> element creation.\n" ++
           "Received:\n" ++
           "- param1: " ++ jsonStringify (JSVal.num 42) ++ " (" ++ typeofJS (JSVal.num 42) ++ ")\n" ++
           "- param2: " ++ jsonStringify (JSVal.str "ignored") ++ " (" ++ typeofJS (JSVal.str "ignored") ++ ")")],
       .error ("Invalid parameters for <" ++ "div" ++ "> element creation.\n" ++
           "Received:\n" ++
           "- param1: " ++ jsonStringify (JSVal.num 42) ++ " (" ++ typeofJS (JSVal.num 42) ++ ")\n" ++
           "- param2: " ++ jsonStringify (JSVal.str "ignored") ++ " (" ++ typeofJS (JSVal.str "ignored") ++ ")")) :=
  ⟨rfl, unmatched_params_raise_invalid_arguments "div" ⟨[]⟩ (JSVal.num 42) (JSVal.str "ignored") rfl⟩

/-- C7: on any failure during resolution or build, the factory emits
exactly one log line naming the tag and the underlying error message
and re-raises that same error to the caller. -/
theorem factory_logs_and_rethrows (tag : String) (store : Store) (p1 p2 : JSVal)
    (msg : String) (h : buildCall tag store p1 p2 = .error msg) :
    createNativeElementFunction tag store p1 p2 =
      (["Error creating " ++ tag ++ " element: " ++ msg], .error msg) := by
  simp [createNativeElementFunction, h]

/-- C7 witness: the invalid call `div(42, "ignored")` produces one log
line carrying the tag and the message of the very error that is
re-raised. -/
theorem factory_logs_and_rethrows_witness :
    createNativeElementFunction "div" ⟨[]⟩ (JSVal.num 42) (JSVal.str "ignored") =
      (["Error creating " ++ "div" ++ " element: " ++
          invalidArgsMessage "div" (JSVal.num 42) (JSVal.str "ignored")],
       .error (invalidArgsMessage "div" (JSVal.num 42) (JSVal.str "ignored"))) :=
  factory_logs_and_rethrows "div" ⟨[]⟩ (JSVal.num 42) (JSVal.str "ignored")
    (invalidArgsMessage "div" (JSVal.num 42) (JSVal.str "ignored")) rfl

/-- C4: a property entry whose key starts with `on` registers its value
as a listener for the event type `key` minus the two prefix characters,
passed through verbatim (no lower-casing), and sets no attribute, when
the value is callable; when the value is not callable the entry falls
through to generic attribute assignment and registers no listener. -/
theorem on_prefixed_key_dispatch (e : ElemData) (key : String) (value : JSVal)
    (hk : strStartsWith key "on" = true) :
    (typeofJS value = "function" →
      applyProp e key value = .ok { e with listeners := e.listeners ++ [(strDrop key 2, value)] }) ∧
    (typeofJS value ≠ "function" →
      applyProp e key value = .ok { e with attrs := setAttr e.attrs key (jsToString value) }) := by
  have hc : (key == "className") = false := by
    by_cases hkey : key = "className"
    · subst hkey; exact absurd hk (by decide)
    · simp [hkey]
  have hd : (key == "data") = false := by
    by_cases hkey : key = "data"
    · subst hkey; exact absurd hk (by decide)
    · simp [hkey]
  constructor
  · intro hf
    simp [applyProp, hk, hf]
  · intro hf
    have hf2 : (typeofJS value == "function") = false := by
      simp [hf]
    simp [applyProp, hk, hf2, hc, hd]

/-- C4 witness: `onClick` with a callable value registers a `Click`
listener (mixed case preserved) and with a non-callable value becomes a
generic attribute. -/
theorem on_prefixed_key_dispatch_witness :
    (strStartsWith "onClick" "on" = true) ∧
    ((typeofJS (JSVal.func 0) = "function" →
        applyProp (newElement "div") "onClick" (JSVal.func 0) =
          .ok { newElement "div" with
                listeners := (newElement "div").listeners ++ [(strDrop "onClick" 2, JSVal.func 0)] }) ∧
     (typeofJS (JSVal.func 0) ≠ "function" →
        applyProp (newElement "div") "onClick" (JSVal.func 0) =
          .ok { newElement "div" with
                attrs := setAttr (newElement "div").attrs "onClick" (jsToString (JSVal.func 0)) })) :=
  ⟨by decide, on_prefixed_key_dispatch (newElement "div") "onClick" (JSVal.func 0) (by decide)⟩

/-- Bind on a successful `Except` applies the continuation. -/
theorem except_bind_ok {ε α β : Type} (a : α) (f : α → Except ε β) :
    (Except.ok a >>= f) = f a := rfl

/-- Bind on a failed `Except` propagates the error. -/
theorem except_bind_error {ε α β : Type} (m : ε) (f : α → Except ε β) :
    ((Except.error m : Except ε α) >>= f) = Except.error m := rfl

/-- When the first parameter is a plain object and resolution succeeds,
the resolved props bag is that very object's entry list. -/
theorem resolveParams_ok_props (tag : String) (es : List (String × JSVal)) (p2 : JSVal)
    (pc : List (String × JSVal) × JSVal)
    (h : resolveParams tag (.obj es) p2 = .ok pc) : pc.1 = es := by
  cases p2 <;> first
    | (injection h with h2; exact (congrArg Prod.fst h2).symm)
    | exact (nomatch h)

/-- Successful resolution yields as children the default empty list,
the first parameter, or the second parameter. -/
theorem resolveParams_ok_children (tag : String) (p1 p2 : JSVal)
    (pc : List (String × JSVal) × JSVal)
    (h : resolveParams tag p1 p2 = .ok pc) :
    pc.2 = .arr [] ∨ pc.2 = p1 ∨ pc.2 = p2 := by
  cases p1 <;> cases p2 <;> first
    | (injection h with h2; cases h2; simp)
    | exact (nomatch h)

/-- Forward computation of the `try` block from its three pipeline
stages. -/
theorem buildCall_of_pipeline (tag : String) (s : Store) (p1 p2 : JSVal)
    (pc : List (String × JSVal) × JSVal) (bag : List (String × JSVal)) (e : ElemData)
    (hres : resolveParams tag p1 p2 = .ok pc)
    (hmerge : mergeClassNames pc.1 = .ok bag)
    (hnode : buildNode tag bag pc.2 = .ok e) :
    buildCall tag s p1 p2 = .ok (⟨s.nodes ++ [e]⟩, s.nodes.length, bag) := by
  simp only [buildCall, createNativeDOMElement, hres, hmerge, hnode, except_bind_ok]

/-- Inversion of a successful `try` block into its three pipeline
stages. -/
theorem buildCall_ok_inv (tag : String) (s : Store) (p1 p2 : JSVal)
    (out : Store × Nat × List (String × JSVal))
    (h : buildCall tag s p1 p2 = .ok out) :
    ∃ pc bag e, resolveParams tag p1 p2 = .ok pc ∧ mergeClassNames pc.1 = .ok bag ∧
      buildNode tag bag pc.2 = .ok e ∧ out = (⟨s.nodes ++ [e]⟩, s.nodes.length, bag) := by
  unfold buildCall at h
  cases hres : resolveParams tag p1 p2 with
  | error m =>
    rw [hres, except_bind_error] at h
    exact Except.noConfusion h
  | ok pc =>
    simp only [hres, except_bind_ok] at h
    cases hm : mergeClassNames pc.1 with
    | error m =>
      rw [hm, except_bind_error] at h
      exact Except.noConfusion h
    | ok bag =>
      simp only [hm, except_bind_ok, createNativeDOMElement] at h
      cases hn : buildNode tag bag pc.2 with
      | error m =>
        rw [hn, except_bind_error] at h
        exact Except.noConfusion h
      | ok e =>
        simp only [hn, except_bind_ok] at h
        injection h with h2
        exact ⟨pc, bag, e, rfl, hm, hn, h2.symm⟩

/-- C3 counterexample: the claim says the factory splits the class
values "on whitespace", but the source splits on the single space
character only.  With `className = "a\tb"` (a tab between the tokens)
the claim predicts the merged class string `"a b"`, while the code
keeps `"a\tb"` as one token. -/
theorem class_merge_whitespace_counterexample :
    mergeClassNames [("className", JSVal.str "a\tb")] =
      .ok [("className", JSVal.str "a\tb")] ∧
    mergeClassNamesSpecWS [("className", JSVal.str "a\tb")] =
      .ok [("className", JSVal.str "a b")] ∧
    ¬ ("a\tb" = "a b") :=
  ⟨rfl, rfl, by decide⟩

/-- C3 (amended: the values are split on the space character, the
separator the source passes to `split`, rather than on arbitrary
whitespace): merging unions the non-empty space-separated tokens,
`className` tokens first, removes duplicates keeping first-occurrence
order, rejoins them with single spaces into `props.className`, and
removes `props.classes`. -/
theorem class_merge_amended (props : List (String × JSVal)) (cn cs : String)
    (h1 : orEmptyStr (lookupProp props "className") = JSVal.str cn)
    (h2 : orEmptyStr (lookupProp props "classes") = JSVal.str cs)
    (h3 : (propTruthy props "className" || propTruthy props "classes") = true) :
    ∃ out, mergeClassNames props = .ok out ∧
      lookupProp out "classes" = none ∧
      lookupProp out "className" = some (JSVal.str (joinSpace (classTokens cn cs))) ∧
      (classTokens cn cs).Nodup ∧
      ∀ t, t ∈ classTokens cn cs ↔ (t ∈ splitSpace cn ++ splitSpace cs ∧ ¬ t = "") := by
  refine ⟨_, mergeClassNames_eq props cn cs h1 h2 h3, ?_, ?_, ?_, ?_⟩
  · exact lookupProp_delProp_self _ "classes"
  · rw [lookupProp_delProp_ne _ "classes" "className" (by decide)]
    exact lookupProp_setProp_self props "className" _
  · exact dedupFirst_nodup _
  · intro t
    rw [classTokens, mem_dedupFirst, List.mem_filter]
    simp

/-- C3 witness: `className = "a b"` with `classes = "b c"` merges to
exactly the tokens `a`, `b`, `c` in that order, each once, with no
`classes` key left. -/
theorem class_merge_amended_witness :
    (orEmptyStr (lookupProp [("className", JSVal.str "a b"), ("classes", JSVal.str "b c")]
        "className") = JSVal.str "a b") ∧
    (orEmptyStr (lookupProp [("className", JSVal.str "a b"), ("classes", JSVal.str "b c")]
        "classes") = JSVal.str "b c") ∧
    ((propTruthy [("className", JSVal.str "a b"), ("classes", JSVal.str "b c")] "className" ||
      propTruthy [("className", JSVal.str "a b"), ("classes", JSVal.str "b c")] "classes") = true) ∧
    classTokens "a b" "b c" = ["a", "b", "c"] ∧
    (∃ out,
      mergeClassNames [("className", JSVal.str "a b"), ("classes", JSVal.str "b c")] = .ok out ∧
      lookupProp out "classes" = none ∧
      lookupProp out "className" = some (JSVal.str (joinSpace (classTokens "a b" "b c"))) ∧
      (classTokens "a b" "b c").Nodup ∧
      ∀ t, t ∈ classTokens "a b" "b c" ↔
        (t ∈ splitSpace "a b" ++ splitSpace "b c" ∧ ¬ t = "")) :=
  ⟨rfl, rfl, rfl, rfl,
    class_merge_amended [("className", JSVal.str "a b"), ("classes", JSVal.str "b c")]
      "a b" "b c" rfl rfl rfl⟩

/-- C9: when the first parameter is a properties bag with a truthy
`className` or `classes` value and the call returns, the bag the
caller supplied stands mutated: its `className` holds the merged token
string, its `classes` key is gone, and the bag the builder consumed
(returned here as the call's props component, modelling the in-place
update of the caller's object) is exactly the caller's entry list with
that overwrite and deletion applied. -/
theorem props_bag_mutated_in_place (tag : String) (store : Store)
    (es : List (String × JSVal)) (param2 : JSVal) (s : Store) (r : Nat)
    (bag : List (String × JSVal)) (cn cs : String)
    (hcall : (createNativeElementFunction tag store (.obj es) param2).2 = .ok (s, r, bag))
    (h1 : orEmptyStr (lookupProp es "className") = JSVal.str cn)
    (h2 : orEmptyStr (lookupProp es "classes") = JSVal.str cs)
    (h3 : (propTruthy es "className" || propTruthy es "classes") = true) :
    bag = delProp (setProp es "className" (JSVal.str (mergedOf cn cs))) "classes" ∧
    lookupProp bag "className" = some (JSVal.str (mergedOf cn cs)) ∧
    lookupProp bag "classes" = none := by
  rw [factory_snd_eq_buildCall] at hcall
  obtain ⟨pc, bag2, e, hres, hm, hn, hout⟩ := buildCall_ok_inv _ _ _ _ _ hcall
  have hp : pc.1 = es := resolveParams_ok_props tag es param2 pc hres
  rw [hp, mergeClassNames_eq es cn cs h1 h2 h3] at hm
  injection hm with hm2
  injection hout with ha hb
  injection hb with hb1 hb2
  have hbag : bag = delProp (setProp es "className" (JSVal.str (mergedOf cn cs))) "classes" :=
    hb2.trans hm2.symm
  refine ⟨hbag, ?_, ?_⟩
  · rw [hbag, lookupProp_delProp_ne _ "classes" "className" (by decide)]
    exact lookupProp_setProp_self es "className" _
  · rw [hbag]
    exact lookupProp_delProp_self _ "classes"

/-- C9 witness: calling the `div` factory with
`{className: "a b", classes: "b c"}` leaves the caller's bag holding
`className = "a b c"` and no `classes` key. -/
theorem props_bag_mutated_witness :
    ((createNativeElementFunction "div" ⟨[]⟩
        (JSVal.obj [("className", JSVal.str "a b"), ("classes", JSVal.str "b c")])
        JSVal.null).2 =
      .ok (⟨[{ tag := "div", attrs := [], className := some "a b c", listeners := [],
               text := none, children := [] }]⟩, 0,
           [("className", JSVal.str "a b c")])) ∧
    ([("className", JSVal.str "a b c")] =
        delProp (setProp [("className", JSVal.str "a b"), ("classes", JSVal.str "b c")]
          "className" (JSVal.str (mergedOf "a b" "b c"))) "classes" ∧
      lookupProp [("className", JSVal.str "a b c")] "className" =
        some (JSVal.str (mergedOf "a b" "b c")) ∧
      lookupProp [("className", JSVal.str "a b c")] "classes" = none) :=
  ⟨rfl,
    props_bag_mutated_in_place "div" ⟨[]⟩
      [("className", JSVal.str "a b"), ("classes", JSVal.str "b c")] JSVal.null
      ⟨[{ tag := "div", attrs := [], className := some "a b c", listeners := [],
          text := none, children := [] }]⟩ 0
      [("className", JSVal.str "a b c")] "a b" "b c" rfl rfl rfl rfl⟩

/-- Setting an attribute whose name is not yet present appends it. -/
theorem setAttr_fresh (attrs : List (String × String)) (k v : String)
    (h : attrs.any (fun kv => kv.1 == k) = false) :
    setAttr attrs k v = attrs ++ [(k, v)] := by
  simp [setAttr, h]

/-- The `data-` prefix is injective on nested keys. -/
theorem dataPrefix_inj (a b : String) (h : ("data-" ++ a) = ("data-" ++ b)) : a = b := by
  have h2 := congrArg String.data h
  rw [String.data_append, String.data_append] at h2
  exact String.ext (List.append_cancel_left h2)

/-- No expanded data attribute is literally named `data`. -/
theorem data_attr_ne_data (k : String) : ¬ ("data-" ++ k) = "data" := by
  intro h
  have h2 := congrArg String.length h
  rw [String.length_append] at h2
  have h3 : ("data-" : String).length = 5 := rfl
  have h4 : ("data" : String).length = 4 := rfl
  omega

/-- Folding the data entries over a node whose attributes contain none
of the expanded names, with pairwise-distinct nested keys, appends the
expanded attributes in entry order. -/
theorem foldl_dataAttr_append (m : List (String × JSVal)) :
    ∀ e : ElemData,
      (∀ kv, kv ∈ m → e.attrs.any (fun p => p.1 == "data-" ++ kv.1) = false) →
      ((m.map fun kv => kv.1).Nodup) →
      m.foldl (fun e kv =>
          { e with attrs := setAttr e.attrs ("data-" ++ kv.1) (jsToString kv.2) }) e =
        { e with attrs := e.attrs ++ (m.map fun kv => ("data-" ++ kv.1, jsToString kv.2)) } := by
  induction m with
  | nil => intro e _ _; simp
  | cons kv rest ih =>
    intro e hfresh hnd
    have hnd2 : (kv.1 :: rest.map fun kv => kv.1).Nodup := by simpa using hnd
    rw [List.foldl_cons, setAttr_fresh _ _ _ (hfresh kv (List.mem_cons_self _ _))]
    rw [ih { e with attrs := e.attrs ++ [("data-" ++ kv.1, jsToString kv.2)] } ?_ ?_]
    · simp [List.append_assoc]
    · intro kv2 hm
      rw [List.any_append, hfresh kv2 (List.mem_cons_of_mem _ hm), Bool.false_or]
      simp only [List.any_cons, List.any_nil, Bool.or_false]
      rw [beq_eq_false_iff_ne]
      intro hc
      have hk : kv.1 = kv2.1 := dataPrefix_inj _ _ hc
      exact (List.nodup_cons.mp hnd2).1 (hk ▸ List.mem_map_of_mem (fun kv => kv.1) hm)
    · exact (List.nodup_cons.mp hnd2).2

/-- The `data` branch of the property loop on a plain-object value
folds the expanded attributes over the node. -/
theorem applyProp_data_obj (e : ElemData) (m : List (String × JSVal)) :
    applyProp e "data" (JSVal.obj m) =
      .ok (m.foldl (fun e kv =>
        { e with attrs := setAttr e.attrs ("data-" ++ kv.1) (jsToString kv.2) }) e) := rfl

/-- C5: a properties bag whose `data` key holds a mapping with
pairwise-distinct nested keys builds a node carrying, for each nested
key/value pair, an attribute `data-<nestedKey>` whose value is the
string form of the nested value, in entry order, and none of those
attributes — hence no attribute of the fresh node — is literally named
`data`. -/
theorem data_key_expands_to_attributes (store : Store) (tag : String)
    (m : List (String × JSVal)) (hnd : ((m.map fun kv => kv.1).Nodup)) :
    createNativeDOMElement store tag [("data", JSVal.obj m)] (JSVal.arr []) =
      .ok (⟨store.nodes ++ [{ newElement tag with
            attrs := m.map fun kv => ("data-" ++ kv.1, jsToString kv.2) }]⟩,
        store.nodes.length) ∧
    ∀ kv, kv ∈ (m.map fun kv => ("data-" ++ kv.1, jsToString kv.2)) → ¬ kv.1 = "data" := by
  constructor
  · have happ : applyProps [("data", JSVal.obj m)] (newElement tag) =
        .ok { newElement tag with
              attrs := m.map fun kv => ("data-" ++ kv.1, jsToString kv.2) } := by
      unfold applyProps
      rw [applyProp_data_obj, except_bind_ok,
        foldl_dataAttr_append m (newElement tag) (fun kv _ => rfl) hnd]
      rfl
    unfold createNativeDOMElement buildNode
    rw [happ, except_bind_ok]
    rfl
  · intro kv hm
    rcases List.mem_map.mp hm with ⟨kv0, _, rfl⟩
    exact data_attr_ne_data kv0.1

/-- C5 witness: `{data: {id: "5", kind: "x"}}` yields exactly
`data-id="5"` and `data-kind="x"` and no literal `data` attribute. -/
theorem data_key_expands_witness :
    (([("id", JSVal.str "5"), ("kind", JSVal.str "x")].map
        fun kv => (kv.1 : String)).Nodup) ∧
    ([("id", JSVal.str "5"), ("kind", JSVal.str "x")].map
        fun kv => ("data-" ++ kv.1, jsToString kv.2)) = [("data-id", "5"), ("data-kind", "x")] ∧
    (createNativeDOMElement ⟨[]⟩ "div"
        [("data", JSVal.obj [("id", JSVal.str "5"), ("kind", JSVal.str "x")])] (JSVal.arr []) =
      .ok (⟨[] ++ [{ newElement "div" with
            attrs := [("id", JSVal.str "5"), ("kind", JSVal.str "x")].map
              fun kv => ("data-" ++ kv.1, jsToString kv.2) }]⟩, 0) ∧
     ∀ kv, kv ∈ ([("id", JSVal.str "5"), ("kind", JSVal.str "x")].map
        fun kv => ("data-" ++ kv.1, jsToString kv.2)) → ¬ kv.1 = "data") :=
  ⟨by decide, rfl,
    data_key_expands_to_attributes ⟨[]⟩ "div"
      [("id", JSVal.str "5"), ("kind", JSVal.str "x")] (by decide)⟩

/-- A property-loop step never changes the node's text, children or
tag (only attributes, class name and listeners). -/
theorem foldl_dataAttr_only_attrs (entries : List (String × JSVal)) :
    ∀ e : ElemData, ∃ a, entries.foldl (fun e kv =>
        { e with attrs := setAttr e.attrs ("data-" ++ kv.1) (jsToString kv.2) }) e =
      { e with attrs := a } := by
  induction entries with
  | nil => intro e; exact ⟨e.attrs, rfl⟩
  | cons kv rest ih =>
    intro e
    rw [List.foldl_cons]
    obtain ⟨a, ha⟩ :=
      ih { e with attrs := setAttr e.attrs ("data-" ++ kv.1) (jsToString kv.2) }
    exact ⟨a, ha⟩

/-- One property entry leaves the node's text, children and tag
untouched. -/
theorem applyProp_preserves (e : ElemData) (k : String) (v : JSVal) (e' : ElemData)
    (h : applyProp e k v = .ok e') :
    e'.text = e.text ∧ e'.children = e.children ∧ e'.tag = e.tag := by
  unfold applyProp at h
  split at h
  · injection h with h2; cases h2; exact ⟨rfl, rfl, rfl⟩
  · split at h
    · injection h with h2; cases h2; exact ⟨rfl, rfl, rfl⟩
    · split at h
      · cases hje : jsEntries v with
        | error m => rw [hje, except_bind_error] at h; exact Except.noConfusion h
        | ok entries =>
          simp only [hje, except_bind_ok] at h
          injection h with h2
          obtain ⟨a, ha⟩ := foldl_dataAttr_only_attrs entries e
          rw [ha] at h2
          cases h2
          exact ⟨rfl, rfl, rfl⟩
      · injection h with h2; cases h2; exact ⟨rfl, rfl, rfl⟩

/-- The whole property loop leaves the node's text, children and tag
untouched. -/
theorem applyProps_preserves (props : List (String × JSVal)) :
    ∀ e e' : ElemData, applyProps props e = .ok e' →
      e'.text = e.text ∧ e'.children = e.children ∧ e'.tag = e.tag := by
  induction props with
  | nil =>
    intro e e' h
    injection h with h2
    cases h2
    exact ⟨rfl, rfl, rfl⟩
  | cons kv rest ih =>
    intro e e' h
    unfold applyProps at h
    cases hap : applyProp e kv.1 kv.2 with
    | error m => rw [hap, except_bind_error] at h; exact Except.noConfusion h
    | ok e1 =>
      simp only [hap, except_bind_ok] at h
      obtain ⟨h1, h2, h3⟩ := ih e1 e' h
      obtain ⟨g1, g2, g3⟩ := applyProp_preserves e kv.1 kv.2 e1 hap
      exact ⟨h1.trans g1, h2.trans g2, h3.trans g3⟩

/-- C6: children are applied after all attributes — the built node is
the children step applied to the result of the property loop, whose
text and children are still empty; a scalar child becomes the node's
text content, and an array is appended in order keeping exactly the
entries that are constructed elements. -/
theorem children_applied_after_attributes (store : Store) (tag : String)
    (props : List (String × JSVal)) (children : JSVal) (e1 : ElemData)
    (h : applyProps props (newElement tag) = .ok e1) :
    createNativeDOMElement store tag props children =
      .ok (⟨store.nodes ++ [applyChildren e1 children]⟩, store.nodes.length) ∧
    e1.text = none ∧ e1.children = [] ∧
    (∀ s, children = JSVal.str s → applyChildren e1 children = { e1 with text := some s }) ∧
    (∀ n, children = JSVal.num n →
      applyChildren e1 children = { e1 with text := some (toString n) }) ∧
    (∀ xs, children = JSVal.arr xs →
      applyChildren e1 children = { e1 with children := childRefs xs }) := by
  obtain ⟨ht, hc, _⟩ := applyProps_preserves props (newElement tag) e1 h
  refine ⟨?_, ht, hc, ?_, ?_, ?_⟩
  · unfold createNativeDOMElement buildNode
    rw [h, except_bind_ok]
    rfl
  · intro s hs; subst hs; rfl
  · intro n hn; subst hn; rfl
  · intro xs hxs
    subst hxs
    have hc0 : e1.children = [] := hc
    have ha : applyChildren e1 (JSVal.arr xs) =
        { e1 with children := e1.children ++ childRefs xs } := rfl
    rw [ha, hc0]
    simp

/-- C6 witness: `ul([child1, "skip", child2])` appends exactly the two
element entries, in order, skipping the string entry, with no text
content set. -/
theorem children_applied_witness :
    (applyProps [] (newElement "ul") = .ok (newElement "ul")) ∧
    childRefs [JSVal.elemRef 0, JSVal.str "skip", JSVal.elemRef 1] = [0, 1] ∧
    (createNativeDOMElement twoChildStore "ul" []
        (JSVal.arr [JSVal.elemRef 0, JSVal.str "skip", JSVal.elemRef 1]) =
      .ok (⟨twoChildStore.nodes ++
          [applyChildren (newElement "ul")
            (JSVal.arr [JSVal.elemRef 0, JSVal.str "skip", JSVal.elemRef 1])]⟩,
        twoChildStore.nodes.length) ∧
     (newElement "ul").text = none ∧ (newElement "ul").children = [] ∧
     (∀ s, JSVal.arr [JSVal.elemRef 0, JSVal.str "skip", JSVal.elemRef 1] = JSVal.str s →
        applyChildren (newElement "ul")
            (JSVal.arr [JSVal.elemRef 0, JSVal.str "skip", JSVal.elemRef 1]) =
          { newElement "ul" with text := some s }) ∧
     (∀ n, JSVal.arr [JSVal.elemRef 0, JSVal.str "skip", JSVal.elemRef 1] = JSVal.num n →
        applyChildren (newElement "ul")
            (JSVal.arr [JSVal.elemRef 0, JSVal.str "skip", JSVal.elemRef 1]) =
          { newElement "ul" with text := some (toString n) }) ∧
     (∀ xs, JSVal.arr [JSVal.elemRef 0, JSVal.str "skip", JSVal.elemRef 1] = JSVal.arr xs →
        applyChildren (newElement "ul")
            (JSVal.arr [JSVal.elemRef 0, JSVal.str "skip", JSVal.elemRef 1]) =
          { newElement "ul" with children := childRefs xs })) :=
  ⟨rfl, rfl,
    children_applied_after_attributes twoChildStore "ul" []
      (JSVal.arr [JSVal.elemRef 0, JSVal.str "skip", JSVal.elemRef 1])
      (newElement "ul") rfl⟩

/-- An array whose entries are all non-elements contributes no child
references. -/
theorem childRefs_nil_of_no_refs (xs : List JSVal)
    (h : (xs.all fun c => !(isHTMLElement c)) = true) : childRefs xs = [] := by
  induction xs with
  | nil => rfl
  | cons c rest ih =>
    simp only [List.all_cons, Bool.and_eq_true] at h
    cases c <;> simp_all [childRefs, List.filterMap_cons, isHTMLElement]

/-- The children step keeps an empty child list when the children
value references no constructed element. -/
theorem applyChildren_children_nil (e : ElemData) (v : JSVal)
    (he : e.children = []) (hv : hasNoElemRefs v = true) :
    (applyChildren e v).children = [] := by
  cases v with
  | arr xs =>
    have hx : childRefs xs = [] :=
      childRefs_nil_of_no_refs xs (by simpa [hasNoElemRefs] using hv)
    simp [applyChildren, typeofJS, isArrayJS, hx, he]
  | str s => simpa [applyChildren, typeofJS] using he
  | num n => simpa [applyChildren, typeofJS] using he
  | null => simpa [applyChildren, typeofJS, isArrayJS] using he
  | func i => simpa [applyChildren, typeofJS, isArrayJS] using he
  | obj es => simpa [applyChildren, typeofJS, isArrayJS] using he
  | elemRef r => simpa [applyChildren, typeofJS, isArrayJS] using he

/-- A successfully built node has no children when the children value
references no constructed element. -/
theorem buildNode_children_nil (tag : String) (props : List (String × JSVal))
    (ch : JSVal) (e : ElemData) (h : buildNode tag props ch = .ok e)
    (hch : hasNoElemRefs ch = true) : e.children = [] := by
  unfold buildNode at h
  cases hap : applyProps props (newElement tag) with
  | error m => rw [hap, except_bind_error] at h; exact Except.noConfusion h
  | ok e1 =>
    simp only [hap, except_bind_ok] at h
    injection h with h2
    cases h2
    exact applyChildren_children_nil e1 ch
      ((applyProps_preserves props (newElement tag) e1 hap).2.1) hch

/-- C8 counterexample: the claim promises that two invocations with
the same arguments share no node references, but a call whose argument
is a child-element list makes both result nodes reference the very
same passed-in child.  Two `div([elemRef 0])` calls yield nodes 2
and 3, and both have node 0 as their (only) child — a shared node
reference (under the host DOM the second `appendChild` would even
re-parent the child away from the first result, so the two results
also would not keep identical child lists). -/
theorem repeated_call_shares_child_counterexample :
    twiceResult "div" twoChildStore (JSVal.arr [JSVal.elemRef 0]) JSVal.null =
      .ok (⟨[sampleChild, sampleChild2, divWithChild0, divWithChild0]⟩, 2, 3) ∧
    divWithChild0.children = [0] :=
  ⟨rfl, rfl⟩

/-- C8 (amended: restricted to calls whose parameters reference no
previously constructed elements; element children passed by reference
end up shared between the two results): invoking the same factory
twice with the same arguments produces two nodes with distinct
references, equal attributes, class name, listeners, text and
children, and — the parameters referencing no elements — an empty
child list, so the two results share no node references. -/
theorem repeated_call_independent_nodes (tag : String) (store : Store) (p1 p2 : JSVal)
    (s2 : Store) (r1 r2 : Nat)
    (hne1 : hasNoElemRefs p1 = true) (hne2 : hasNoElemRefs p2 = true)
    (h : twiceResult tag store p1 p2 = .ok (s2, r1, r2)) :
    ¬ r1 = r2 ∧
    s2.nodes[r1]? = s2.nodes[r2]? ∧
    ¬ (s2.nodes[r1]? = none) ∧
    (s2.nodes[r1]?).map (fun e => e.children) = some [] := by
  unfold twiceResult at h
  rw [factory_snd_eq_buildCall tag store p1 p2] at h
  cases hb1 : buildCall tag store p1 p2 with
  | error m => rw [hb1, except_bind_error] at h; exact Except.noConfusion h
  | ok t1 =>
    simp only [hb1, except_bind_ok] at h
    rw [factory_snd_eq_buildCall tag t1.1 p1 p2] at h
    obtain ⟨pc, bag, e, hres, hm, hn, ht1⟩ := buildCall_ok_inv tag store p1 p2 t1 hb1
    have hb2 := buildCall_of_pipeline tag t1.1 p1 p2 pc bag e hres hm hn
    simp only [hb2, except_bind_ok] at h
    injection h with h2
    subst ht1
    injection h2 with h3 h4
    injection h4 with h5 h6
    subst h3
    subst h5
    subst h6
    have hech : e.children = [] := by
      rcases resolveParams_ok_children tag p1 p2 pc hres with hch | hch | hch
      · exact buildNode_children_nil tag bag pc.2 e hn (by rw [hch]; rfl)
      · exact buildNode_children_nil tag bag pc.2 e hn (by rw [hch]; exact hne1)
      · exact buildNode_children_nil tag bag pc.2 e hn (by rw [hch]; exact hne2)
    have g1 : ((store.nodes ++ [e]) ++ [e])[store.nodes.length]? = some e := by
      rw [List.getElem?_append_left (by simp)]
      exact List.getElem?_concat_length store.nodes e
    have g2 : ((store.nodes ++ [e]) ++ [e])[(store.nodes ++ [e]).length]? = some e :=
      List.getElem?_concat_length (store.nodes ++ [e]) e
    refine ⟨?_, ?_, ?_, ?_⟩
    · simp [List.length_append]
    · simp only []
      rw [g1, g2]
    · simp only []
      rw [g1]
      simp
    · simp only []
      rw [g1]
      simp [hech]

/-- C8 witness for the amended theorem: two `div({id: "5"}, "hi")`
calls on the empty store produce references 0 and 1 with equal node
data and empty children. -/
theorem repeated_call_independent_witness :
    (hasNoElemRefs (JSVal.obj [("id", JSVal.str "5")]) = true) ∧
    (hasNoElemRefs (JSVal.str "hi") = true) ∧
    (twiceResult "div" ⟨[]⟩ (JSVal.obj [("id", JSVal.str "5")]) (JSVal.str "hi") =
      .ok (⟨[{ tag := "div", attrs := [("id", "5")], className := none, listeners := [],
               text := some "hi", children := [] },
             { tag := "div", attrs := [("id", "5")], className := none, listeners := [],
               text := some "hi", children := [] }]⟩, 0, 1)) ∧
    (¬ (0 : Nat) = 1 ∧
      (⟨[{ tag := "div", attrs := [("id", "5")], className := none, listeners := [],
           text := some "hi", children := [] },
         { tag := "div", attrs := [("id", "5")], className := none, listeners := [],
           text := some "hi", children := [] }]⟩ : Store).nodes[0]? =
        (⟨[{ tag := "div", attrs := [("id", "5")], className := none, listeners := [],
             text := some "hi", children := [] },
           { tag := "div", attrs := [("id", "5")], className := none, listeners := [],
             text := some "hi", children := [] }]⟩ : Store).nodes[1]? ∧
      ¬ ((⟨[{ tag := "div", attrs := [("id", "5")], className := none, listeners := [],
              text := some "hi", children := [] },
            { tag := "div", attrs := [("id", "5")], className := none, listeners := [],
              text := some "hi", children := [] }]⟩ : Store).nodes[0]? = none) ∧
      ((⟨[{ tag := "div", attrs := [("id", "5")], className := none, listeners := [],
            text := some "hi", children := [] },
          { tag := "div", attrs := [("id", "5")], className := none, listeners := [],
            text := some "hi", children := [] }]⟩ : Store).nodes[0]?).map
        (fun e => e.children) = some []) :=
  ⟨rfl, rfl, rfl,
    repeated_call_independent_nodes "div" ⟨[]⟩ (JSVal.obj [("id", JSVal.str "5")])
      (JSVal.str "hi") _ 0 1 rfl rfl rfl⟩

/-- C10: the `handlers` key declared in `ElementProps` gets no special
treatment from the builder: it does not start with the event prefix, so
no listener is registered from it and the entry is assigned as a
generic attribute literally named `handlers`. -/
theorem handlers_key_not_special (e : ElemData) (v : JSVal) :
    (strStartsWith "handlers" "on") = false ∧
    applyProp e "handlers" v = .ok { e with attrs := setAttr e.attrs "handlers" (jsToString v) } := by
  constructor
  · decide
  · have h1 : (strStartsWith "handlers" "on") = false := by decide
    have h2 : ("handlers" == "className") = false := by decide
    have h3 : ("handlers" == "data") = false := by decide
    simp [applyProp, h1, h2, h3]

end Novel
